import Mathlib

/-!
Shallow embedding of the leaderboard bot's ledger store
(`src/bot/leaderboard.py`), rank resolver and rendering helpers
(`src/bot/utils.py`), and the points-mutation command surface
(`src/bot/commands.py`).

The persistent `leaderboard` table is modelled as a `List Row`.  Timestamps
are abstract `Nat` instants supplied by the caller (the code passes
`datetime.now()`; the SQL trigger `update_last_updated` rewrites
`last_updated` to the current time on every UPDATE, so updates always stamp
the current instant).  Storage-layer exceptions, which the Python code
catches with `try/except` around each method body, are modelled by an
explicit `fault` flag: a faulting call performs no write (the transaction
rolls back) and takes the `except` branch's return value.
-/

namespace LeadBoard

/-- One row of the `leaderboard` table:
`(guild_id, user_id, username, points, last_updated, created_at)`,
primary key `(guild_id, user_id)`, `points INTEGER CHECK (points >= 0)`. -/
structure Row where
  guildId : Nat
  userId : Nat
  username : String
  points : Int
  lastUpdated : Nat
  createdAt : Nat
  deriving DecidableEq

/-- The SQL `WHERE guild_id = $1 AND user_id = $2` condition. -/
def keyMatch (g u : Nat) (r : Row) : Bool :=
  r.guildId == g && r.userId == u

/-- `SELECT ... WHERE guild_id = $1 AND user_id = $2` fetching one row. -/
def findEntry (db : List Row) (g u : Nat) : Option Row :=
  db.find? (keyMatch g u)

/-- Number of rows matching the key (the count reported in an UPDATE/DELETE
command tag such as `"DELETE 1"`). -/
def countKey (db : List Row) (g u : Nat) : Nat :=
  (db.filter (keyMatch g u)).length

/-- The points column of the row for `(g, u)`, if present. -/
def pointsAt (db : List Row) (g u : Nat) : Option Int :=
  (findEntry db g u).map Row.points

/-- Python `username[:255]` truncation applied before every insert/update. -/
def truncate255 (s : String) : String :=
  s.take 255

/-- The effect of the conflict branch of the upserts on the conflicting row:
refresh `username` (truncated to 255) and `last_updated`. -/
def touchRow (name : String) (now : Nat) (r : Row) : Row :=
  { r with username := truncate255 name, lastUpdated := now }

/-- `INSERT INTO leaderboard (guild_id, user_id, username, points,
last_updated, created_at) VALUES ($1,$2,$3,0,$4,$4) ON CONFLICT
(guild_id, user_id) DO UPDATE SET username = EXCLUDED.username [...]`.
`add_member` additionally sets `last_updated = EXCLUDED.last_updated` in its
conflict clause; the `update_points` upsert sets only `username`, but the
`BEFORE UPDATE` trigger `update_last_updated` stamps `last_updated` with the
current time on every UPDATE, so both statements refresh `username` and
`last_updated` on conflict and insert `(points 0, now, now)` otherwise. -/
def upsertTouch (db : List Row) (g u : Nat) (name : String) (now : Nat) : List Row :=
  if db.any (keyMatch g u) then
    db.map (fun r => if keyMatch g u r then touchRow name now r else r)
  else
    db ++ [⟨g, u, truncate255 name, 0, now, now⟩]

/-- `LeaderboardManager.add_member` (leaderboard.py lines 151-170): the
idempotent insert-or-touch upsert.  The Python method returns `None` in all
cases and swallows storage errors. -/
def add_member (db : List Row) (g u : Nat) (name : String) (now : Nat) : List Row :=
  upsertTouch db g u name now

/-- The effect of the `UPDATE leaderboard SET points = $3, last_updated = $4`
statement on the matched row. -/
def setPoints (newPoints : Int) (now : Nat) (r : Row) : Row :=
  { r with points := newPoints, lastUpdated := now }

/-- The `if username:` guard at the start of `update_points`'s transaction:
ensure the row exists when a username is supplied, leave the table untouched
otherwise. -/
def ensureMember (db : List Row) (g u : Nat) (username : Option String) (now : Nat) : List Row :=
  match username with
  | some name => upsertTouch db g u name now
  | none => db

/-- `LeaderboardManager.update_points` (leaderboard.py lines 193-253).
Inside one transaction: optionally upsert the row when a username is
supplied; read current points; return `False` when the row is absent; clamp
`current + points_change` at zero; write the new points and `last_updated`;
return `False` on an `"UPDATE 0"` command tag, else `True`.  A storage
fault (`fault = true`) rolls the transaction back and returns `False`. -/
def update_points (db : List Row) (g u : Nat) (pointsChange : Int)
    (username : Option String) (now : Nat) (fault : Bool) : List Row × Bool :=
  if fault then (db, false)
  else
    let db1 := ensureMember db g u username now
    match findEntry db1 g u with
    | none => (db1, false)
    | some r =>
      let newPoints := if r.points + pointsChange < 0 then 0 else r.points + pointsChange
      if countKey db1 g u = 0 then
        (db1, false)
      else
        (db1.map (fun row => if keyMatch g u row then setPoints newPoints now row else row),
         true)

/-- Result of `LeaderboardManager.remove_member`: the new table state, the
asyncpg command tag (`f"DELETE {n}"`, compared against `"DELETE 1"` for
logging), and the Python return value. -/
structure RemoveResult where
  db : List Row
  tag : String
  ret : Option Bool
  deriving DecidableEq

/-- `LeaderboardManager.remove_member` (leaderboard.py lines 172-191):
`DELETE FROM leaderboard WHERE guild_id = $1 AND user_id = $2`.  The command
tag is only inspected for logging; the method body has no `return`
statement, so the Python call evaluates to `None` whether or not a row was
deleted. -/
def remove_member (db : List Row) (g u : Nat) : RemoveResult :=
  { db := db.filter (fun r => !(keyMatch g u r)),
    tag := "DELETE " ++ toString (countKey db g u),
    ret := none }

/-- Python truthiness of a modelled return value (`None` is falsy). -/
def pyTruthy : Option Bool → Bool
  | none => false
  | some b => b

/-- `WHERE guild_id = $1 AND points >= 0`, the row set counted and ranked by
`_get_leaderboard_async`. -/
def visibleRows (db : List Row) (g : Nat) : List Row :=
  db.filter (fun r => r.guildId == g && decide (0 ≤ r.points))

/-- `ORDER BY points DESC, last_updated ASC`: `a` sorts no later than `b`. -/
def rowOrder (a b : Row) : Prop :=
  b.points < a.points ∨ (a.points = b.points ∧ a.lastUpdated ≤ b.lastUpdated)

instance : DecidableRel rowOrder := fun a b => by
  unfold rowOrder; exact inferInstance

instance : IsTotal Row rowOrder := ⟨by
  intro a b; unfold rowOrder; omega⟩

instance : IsTrans Row rowOrder := ⟨by
  intro a b c hab hbc; unfold rowOrder at *; omega⟩

/-- The guild's full ordered set: `WHERE guild_id = $1 AND points >= 0
ORDER BY points DESC, last_updated ASC`. -/
def orderedGuildRows (db : List Row) (g : Nat) : List Row :=
  List.insertionSort rowOrder (visibleRows db g)

/-- `ROW_NUMBER() OVER (ORDER BY points DESC, last_updated ASC)`: pair each
row of the ordered set with its 1-based position (first argument `n` is the
number given to the head). -/
def withRowNumbers : Nat → List Row → List (Nat × Row)
  | _, [] => []
  | n, r :: rs => (n, r) :: withRowNumbers (n + 1) rs

/-- One dict of the list built by `_get_leaderboard_async`
(`rank`, `user_id`, `username`, `points`, `last_updated`). -/
structure PageRow where
  rank : Nat
  userId : Nat
  username : String
  points : Int
  lastUpdated : Nat
  deriving DecidableEq

/-- Conversion of a ranked SQL row to the returned dict. -/
def toPageRow (p : Nat × Row) : PageRow :=
  ⟨p.1, p.2.userId, p.2.username, p.2.points, p.2.lastUpdated⟩

/-- The `points DESC, last_updated ASC` order on returned page rows. -/
def pageOrder (a b : PageRow) : Prop :=
  b.points < a.points ∨ (a.points = b.points ∧ a.lastUpdated ≤ b.lastUpdated)

/-- The triple returned by `_get_leaderboard_async`:
`(leaderboard, page, total_pages)`. -/
structure PageResult where
  rows : List PageRow
  page : Int
  totalPages : Nat
  deriving DecidableEq

/-- `LeaderboardManager._get_leaderboard_async` (leaderboard.py lines
259-308): count the guild's rows; on zero return `([], 0, 0)`; otherwise
`total_pages = max(1, ceil(count / per_page))`, clamp the requested page
into `[1, total_pages]`, and return the `LIMIT per_page OFFSET
(page-1)*per_page` slice of the ranked full ordering. -/
def get_leaderboard (db : List Row) (g : Nat) (page : Int) (perPage : Nat) : PageResult :=
  let total := (visibleRows db g).length
  if total = 0 then ⟨[], 0, 0⟩
  else
    let totalPages : Nat := max 1 ((total + perPage - 1) / perPage)
    let clamped : Int := max 1 (min page (totalPages : Int))
    let offset : Nat := (clamped - 1).toNat * perPage
    let rows :=
      (((withRowNumbers 1 (orderedGuildRows db g)).drop offset).take perPage).map toPageRow
    ⟨rows, clamped, totalPages⟩

/-- The dict returned by `LeaderboardManager.get_user_stats`. -/
structure Stats where
  username : String
  points : Int
  rank : Nat
  lastUpdated : Nat
  createdAt : Nat
  deriving DecidableEq

/-- `LeaderboardManager.get_user_stats` (leaderboard.py lines 310-340):
`SELECT username, points, last_updated, created_at, ROW_NUMBER() OVER
(ORDER BY points DESC, last_updated ASC) as rank FROM leaderboard WHERE
guild_id = $1 AND user_id = $2`.  The window function is evaluated AFTER the
`WHERE` clause, i.e. over only the rows matching `(g, u)`; `fetchrow` takes
the first of them, whose row number is therefore always 1. -/
def get_user_stats (db : List Row) (g u : Nat) : Option Stats :=
  match withRowNumbers 1 (List.insertionSort rowOrder (db.filter (keyMatch g u))) with
  | [] => none
  | (n, r) :: _ => some ⟨r.username, r.points, n, r.lastUpdated, r.createdAt⟩

/-! Rank resolver, `get_rank_title_by_points` in `src/bot/utils.py`
(lines 36-107).  A Discord member is modelled by the list of role ids it
holds (`member.roles`), an absent member by `none`. -/

/-- The `special_roles` dict: role id to absolute-override title, in the
source's insertion order. -/
def special_roles : List (Nat × String) :=
  [(1266143259801948261, "Demon God"),
   (1281115906717650985, "Heavenly Demon"),
   (1276607675735736452, "Guardian"),
   (1304283446016868424, "Supreme Demon"),
   (1266242655642456074, "Demon Council"),
   (1390279781827874937, "Young Master")]

/-- `rank_roles["Core Disciple"]`. -/
def core_roles : List Nat :=
  [1391059979167072286, 1391060071189971075, 1382602945752727613]

/-- `rank_roles["Inner Disciple"]`. -/
def inner_roles : List Nat :=
  [1268528848740290580, 1308823860740624384, 1391059841505689680]

/-- `rank_roles["Outer Disciple"]`. -/
def outer_roles : List Nat :=
  [1389474689818296370, 1266826177163694181, 1308823565881184348]

/-- The loop `for role in member.roles: if role.id in special_roles: return
special_roles[role.id]` — the first held role found in the dict wins. -/
def lookupSpecial (roles : List Nat) : Option String :=
  roles.findSome? (fun rid => special_roles.lookup rid)

/-- `any(role.id in rank_roles[...] for role in member.roles)`. -/
def hasAny (roles pool : List Nat) : Bool :=
  roles.any (fun rid => pool.contains rid)

/-- `get_rank_title_by_points(points, member)` (utils.py lines 36-107). -/
def get_rank_title_by_points (points : Int) (member : Option (List Nat)) : String :=
  match member with
  | some roles =>
    match lookupSpecial roles with
    | some title => title
    | none =>
      if 750 ≤ points ∧ hasAny roles core_roles then "Core Disciple"
      else if 350 ≤ points ∧ hasAny roles inner_roles then "Inner Disciple"
      else if 10 ≤ points ∧ hasAny roles outer_roles then "Outer Disciple"
      else if points < 10 then "Servant"
      else if 750 ≤ points then "Inner Disciple"
      else if 350 ≤ points then "Inner Disciple"
      else if 10 ≤ points then "Outer Disciple"
      else "Servant"
  | none =>
    if 750 ≤ points then "Inner Disciple"
    else if 350 ≤ points then "Inner Disciple"
    else if 10 ≤ points then "Outer Disciple"
    else "Servant"

/-! Leaderboard embed rendering, `create_leaderboard_embed` in
`src/bot/utils.py` (lines 224-324), modelled for the `guild=None` call shape
(so the per-row rank title comes from the point-only branch of
`get_rank_title_by_points`).  Only the ranking field texts matter for the
verified properties. -/

/-- Ordinal rank display: `"1st"`, `"2nd"`, `"3rd"`, else `f"{rank}th"`. -/
def ordinalDisplay (rank : Nat) : String :=
  if rank = 1 then "1st"
  else if rank = 2 then "2nd"
  else if rank = 3 then "3rd"
  else toString rank ++ "th"

/-- `username[:12] + "..." if len(username) > 12 else username`. -/
def displayName (username : String) : String :=
  if username.length > 12 then username.take 12 ++ "..." else username

/-- Helper for Python's `f"{n:,}"`: walk the reversed digit list inserting a
comma before each digit that starts a new group of three. -/
def commaRev (k : Nat) : List Char → List Char
  | [] => []
  | c :: rest => if k = 3 then ',' :: c :: commaRev 1 rest else c :: commaRev (k + 1) rest

/-- Python `f"{n:,}"` for a nonnegative integer: decimal digits grouped in
threes by commas. -/
def commaFormat (n : Nat) : String :=
  String.mk ((commaRev 0 (toString n).data.reverse).reverse)

/-- Python `f"{i:,}"` for an arbitrary integer (sign, then grouped digits). -/
def commaFormatInt (i : Int) : String :=
  if i < 0 then "-" ++ commaFormat i.natAbs else commaFormat i.natAbs

/-- One ranking line:
`f"{rank_display} {username_display} - {points:,} pts • {rank_title}\n"`. -/
def formatEntry (row : PageRow) : String :=
  ordinalDisplay row.rank ++ " " ++ displayName row.username ++ " - " ++
    commaFormatInt row.points ++ " pts • " ++
    get_rank_title_by_points row.points none ++ "\n"

/-- The field-splitting loop of `create_leaderboard_embed`: `cur` is
`rankings_texts[current_field]`, `done` the completed earlier fields in
reverse, `fieldIdx` the value of `current_field`.  An entry that would push
the current field past 950 characters opens a new field; after each entry
the loop breaks once `current_field >= 20`. -/
def blocksLoop : List String → String → List String → Nat → List String
  | [], cur, done, _ => (cur :: done).reverse
  | e :: rest, cur, done, fieldIdx =>
    if (cur ++ e).length > 950 then
      if fieldIdx + 1 ≥ 20 then (e :: cur :: done).reverse
      else blocksLoop rest e (cur :: done) (fieldIdx + 1)
    else
      if fieldIdx ≥ 20 then ((cur ++ e) :: done).reverse
      else blocksLoop rest (cur ++ e) done fieldIdx

/-- Python `str.strip()` on the ASCII whitespace the rendered lines can
contain. -/
def isPySpace (c : Char) : Bool :=
  c = ' ' ∨ c = '\t' ∨ c = '\n' ∨ c = '\r' ∨ c = '\x0b' ∨ c = '\x0c'

/-- Characters of a string with leading and trailing whitespace removed. -/
def stripChars (cs : List Char) : List Char :=
  ((cs.dropWhile isPySpace).reverse.dropWhile isPySpace).reverse

/-- The ranking field texts added to the embed: the fields built by the
splitting loop, keeping only those that are non-empty after `strip()`
(`if rankings_text.strip():`). -/
def rankingFields (rows : List PageRow) : List String :=
  (blocksLoop (rows.map formatEntry) "" [] 0).filter
    (fun s => !(stripChars s.data).isEmpty)

/-- A rank value of 1161 decimal digits, built from small powers.  Nothing
in `_get_leaderboard_async`'s row dicts bounds the `rank` integer, so a page
row may carry it into the renderer. -/
def giantRank : Nat :=
  (10 ^ 232) * (10 ^ 232) * (10 ^ 232) * (10 ^ 232) * (10 ^ 232)

/-- A page-row list whose first line is short and whose 20 further rows
each render to a 1185-character line: every later line overflows the
950-character check on its own, so the splitting loop opens a new field per
row and only breaks after field index 20 — leaving 21 ranking fields, one
of them (each singleton line) longer than 1024 characters. -/
def giantRows : List PageRow :=
  ⟨1, 0, "a", 0, 0⟩ :: List.replicate 20 ⟨giantRank, 0, "z", 1, 0⟩

/-! Points-input validation and the `/addpoints` command surface
(`validate_points_input`, utils.py lines 611-619; `add_points`,
commands.py lines 310-339). -/

/-- Numeric value of an ASCII digit character. -/
def digitVal (c : Char) : Nat :=
  c.toNat - '0'.toNat

/-- Continuation of Python `int(...)` digit parsing: after at least one
digit, each further character is a digit or a single underscore that must be
followed by a digit. -/
def pyDigitsCore (acc : Nat) : List Char → Option Nat
  | [] => some acc
  | '_' :: c :: rest =>
    if c.isDigit then pyDigitsCore (acc * 10 + digitVal c) rest else none
  | ['_'] => none
  | c :: rest =>
    if c.isDigit then pyDigitsCore (acc * 10 + digitVal c) rest else none

/-- Python `int(...)` digit-run parsing: a nonempty digit sequence with
optional single underscores between digits. -/
def pyDigits : List Char → Option Nat
  | [] => none
  | c :: rest => if c.isDigit then pyDigitsCore (digitVal c) rest else none

/-- Model of the Python builtin `int(s)` on ASCII input: surrounding
whitespace is ignored, an optional single sign precedes the digit run;
anything else raises `ValueError`, modelled as `none`. -/
def pyInt (s : String) : Option Int :=
  match stripChars s.data with
  | '+' :: rest => (pyDigits rest).map (fun n => (n : Int))
  | '-' :: rest => (pyDigits rest).map (fun n => -(n : Int))
  | cs => (pyDigits cs).map (fun n => (n : Int))

/-- `validate_points_input` (utils.py lines 611-619): parse with `int`,
reject values outside `[-10000, 10000]`, return the integer otherwise;
`ValueError` yields `None`. -/
def validate_points_input (s : String) : Option Int :=
  match pyInt s with
  | none => none
  | some points => if points < -10000 ∨ points > 10000 then none else some points

/-- Outcome reported by the `/addpoints` command handler. -/
inductive CommandOutcome where
  | invalidTarget
  | invalidPoints
  | updated
  | updateFailed
  deriving DecidableEq

/-- The ledger-relevant behaviour of the `add_points` command handler
(commands.py lines 310-339): reject bot targets, reject a points amount
outside `[-10000, 10000]` before any mutation, otherwise call
`update_points` with the member's display name and report its result. -/
def add_points_command (db : List Row) (g u : Nat) (userIsBot : Bool)
    (name : String) (points : Int) (now : Nat) (fault : Bool) :
    List Row × CommandOutcome :=
  if userIsBot then (db, .invalidTarget)
  else if points < -10000 ∨ points > 10000 then (db, .invalidPoints)
  else
    match update_points db g u points (some name) now fault with
    | (db2, true) => (db2, .updated)
    | (db2, false) => (db2, .updateFailed)

/-! Helper lemmas about the ledger operations. -/

theorem ite_nonneg_eq_max (x : Int) : (if x < 0 then (0 : Int) else x) = max 0 x := by
  rcases lt_or_ge x 0 with h | h
  · rw [if_pos h]
    exact (max_eq_left h.le).symm
  · rw [if_neg (not_lt.2 h)]
    exact (max_eq_right h).symm

theorem keyMatch_touchRow (g u : Nat) (name : String) (now : Nat) (r : Row) :
    keyMatch g u (touchRow name now r) = keyMatch g u r := by
  simp [keyMatch, touchRow]

theorem keyMatch_setPoints (g u : Nat) (np : Int) (now : Nat) (r : Row) :
    keyMatch g u (setPoints np now r) = keyMatch g u r := by
  simp [keyMatch, setPoints]

theorem findEntry_mapUpdate (db : List Row) (g u : Nat) (f : Row → Row)
    (hf : ∀ r, keyMatch g u (f r) = keyMatch g u r) :
    findEntry (db.map (fun r => if keyMatch g u r then f r else r)) g u =
      (findEntry db g u).map f := by
  induction db with
  | nil => rfl
  | cons r rs ih =>
    unfold findEntry at *
    by_cases hr : keyMatch g u r = true
    · simp [List.find?_cons, if_pos hr, hf r, hr]
    · have hr' : keyMatch g u r = false := by
        cases hkm : keyMatch g u r
        · rfl
        · exact absurd hkm hr
      simp [List.find?_cons, hr', if_neg hr, ih]

theorem any_of_findEntry (db : List Row) (g u : Nat) (r : Row)
    (h : findEntry db g u = some r) : db.any (keyMatch g u) = true := by
  refine List.any_eq_true.2 ⟨r, List.mem_of_find?_eq_some h, List.find?_some h⟩

theorem findEntry_none_of_any_false (db : List Row) (g u : Nat)
    (h : db.any (keyMatch g u) = false) : findEntry db g u = none := by
  refine List.find?_eq_none.2 ?_
  intro r hr hkey
  exact absurd hkey (List.any_eq_false.1 h r hr)

theorem findEntry_upsertTouch (db : List Row) (g u : Nat) (name : String) (now : Nat) :
    findEntry (upsertTouch db g u name now) g u =
      some (match findEntry db g u with
            | some r => touchRow name now r
            | none => ⟨g, u, truncate255 name, 0, now, now⟩) := by
  unfold upsertTouch
  rcases Bool.eq_false_or_eq_true (db.any (keyMatch g u)) with hany | hany
  · rw [if_pos hany]
    rw [findEntry_mapUpdate db g u (touchRow name now) (keyMatch_touchRow g u name now)]
    rcases hf : findEntry db g u with _ | r
    · rcases List.any_eq_true.1 hany with ⟨r, hr, hkey⟩
      exact absurd hkey (List.find?_eq_none.1 hf r hr)
    · rfl
  · rw [if_neg (by simp [hany]), findEntry_none_of_any_false db g u hany]
    unfold findEntry
    rw [List.find?_append, List.find?_eq_none.2 (fun r hr hkey =>
      absurd hkey (List.any_eq_false.1 hany r hr))]
    simp [keyMatch]

theorem countKey_ne_zero (db : List Row) (g u : Nat) (r : Row)
    (h : findEntry db g u = some r) : countKey db g u ≠ 0 := by
  unfold countKey
  intro hlen
  have hnil : db.filter (keyMatch g u) = [] := List.length_eq_zero.1 hlen
  have := List.filter_eq_nil_iff.1 hnil r (List.mem_of_find?_eq_some h)
  exact this (List.find?_some h)

theorem countKey_eq_zero_iff (db : List Row) (g u : Nat) :
    countKey db g u = 0 ↔ findEntry db g u = none := by
  unfold countKey findEntry
  rw [List.length_eq_zero, List.filter_eq_nil_iff, List.find?_eq_none]

theorem update_points_found (db : List Row) (g u : Nat) (pc : Int) (usn : Option String)
    (now : Nat) (r1 : Row) (hf : findEntry (ensureMember db g u usn now) g u = some r1) :
    update_points db g u pc usn now false =
      ((ensureMember db g u usn now).map (fun row =>
          if keyMatch g u row then
            setPoints (if r1.points + pc < 0 then 0 else r1.points + pc) now row
          else row), true) := by
  unfold update_points
  rw [if_neg (by simp)]
  simp only [hf]
  rw [if_neg (countKey_ne_zero _ g u r1 hf)]

theorem update_points_absent (db : List Row) (g u : Nat) (pc : Int) (now : Nat)
    (hf : findEntry db g u = none) :
    update_points db g u pc none now false = (db, false) := by
  unfold update_points
  rw [if_neg (by simp)]
  simp only [ensureMember, hf]

/-! Claim theorems. -/

/-- C1: `update_points` on an existing entry with current points `c` and
delta `d` stores `max 0 (c + d)` and returns `True`: when `c + d < 0` the
stored value is exactly 0 and the call is not rejected. -/
theorem update_points_applies_clamped_delta (db : List Row) (g u : Nat) (d : Int)
    (usn : Option String) (now : Nat) (r : Row) (h : findEntry db g u = some r) :
    (update_points db g u d usn now false).2 = true ∧
    pointsAt (update_points db g u d usn now false).1 g u = some (max 0 (r.points + d)) := by
  obtain ⟨r1, hf1, hpts⟩ :
      ∃ r1, findEntry (ensureMember db g u usn now) g u = some r1 ∧ r1.points = r.points := by
    cases usn with
    | none => exact ⟨r, h, rfl⟩
    | some name =>
      have hft := findEntry_upsertTouch db g u name now
      rw [h] at hft
      exact ⟨touchRow name now r, hft, by simp [touchRow]⟩
  rw [update_points_found db g u d usn now r1 hf1]
  refine ⟨rfl, ?_⟩
  unfold pointsAt
  rw [findEntry_mapUpdate _ g u (setPoints _ now) (keyMatch_setPoints g u _ now), hf1]
  simp [setPoints, hpts, ite_nonneg_eq_max]

/-- Witness for C1: a user with 5 points receiving delta -1000 ends at
exactly 0 points and the call reports success. -/
theorem update_points_applies_clamped_delta_witness :
    findEntry [(⟨1, 7, "alice", 5, 2, 2⟩ : Row)] 1 7 = some ⟨1, 7, "alice", 5, 2, 2⟩ ∧
    ((update_points [(⟨1, 7, "alice", 5, 2, 2⟩ : Row)] 1 7 (-1000) none 3 false).2 = true ∧
     pointsAt (update_points [(⟨1, 7, "alice", 5, 2, 2⟩ : Row)] 1 7 (-1000) none 3 false).1 1 7 =
       some (max 0 ((5 : Int) + (-1000)))) :=
  ⟨by decide,
   update_points_applies_clamped_delta [⟨1, 7, "alice", 5, 2, 2⟩] 1 7 (-1000) none 3
     ⟨1, 7, "alice", 5, 2, 2⟩ (by decide)⟩

/-- C6: `update_points` returns `False` exactly when a storage fault occurs
or when the entry is absent and no username was supplied to create it, and
whenever it returns `False` the table is unchanged; faults are caught inside
the method and surfaced as `False`, never raised across its boundary. -/
theorem update_points_soft_failure (db : List Row) (g u : Nat) (d : Int)
    (usn : Option String) (now : Nat) (fault : Bool) :
    ((update_points db g u d usn now fault).2 = false ↔
      fault = true ∨ (usn = none ∧ findEntry db g u = none)) ∧
    ((update_points db g u d usn now fault).2 = false →
      (update_points db g u d usn now fault).1 = db) := by
  cases fault with
  | true => exact ⟨⟨fun _ => Or.inl rfl, fun _ => rfl⟩, fun _ => rfl⟩
  | false =>
    cases usn with
    | some name =>
      have hft := findEntry_upsertTouch db g u name now
      rw [update_points_found db g u d (some name) now _ hft]
      constructor
      · simp
      · intro hcontra
        simp at hcontra
    | none =>
      rcases hf : findEntry db g u with _ | r
      · rw [update_points_absent db g u d now hf]
        simp [hf]
      · rw [update_points_found db g u d none now r hf]
        constructor
        · simp [hf]
        · intro hcontra
          simp at hcontra

/-- Witness for C6: on an empty table with no username the call fails
softly and leaves the (empty) table unchanged. -/
theorem update_points_soft_failure_witness :
    (((update_points [] 1 7 5 none 3 false).2 = false ↔
       false = true ∨ ((none : Option String) = none ∧ findEntry [] 1 7 = none)) ∧
     ((update_points [] 1 7 5 none 3 false).2 = false →
       (update_points [] 1 7 5 none 3 false).1 = [])) :=
  update_points_soft_failure [] 1 7 5 none 3 false

/-- C7: `add_member` is idempotent on points: a first call on a missing
entry inserts it with points 0, and a repeat call with the same username
leaves the stored points and `created_at` unchanged, refreshing only
`username` and `last_updated`. -/
theorem add_member_idempotent (db : List Row) (g u : Nat) (name : String) (now1 now2 : Nat) :
    (findEntry db g u = none → pointsAt (add_member db g u name now1) g u = some 0) ∧
    (∀ r1, findEntry (add_member db g u name now1) g u = some r1 →
      findEntry (add_member (add_member db g u name now1) g u name now2) g u =
        some { r1 with username := truncate255 name, lastUpdated := now2 }) := by
  constructor
  · intro h0
    unfold add_member pointsAt
    rw [findEntry_upsertTouch, h0]
    simp
  · intro r1 h1
    unfold add_member at *
    rw [findEntry_upsertTouch, h1]
    simp [touchRow]

set_option maxRecDepth 10000 in
/-- Witness for C7: inserting a fresh member twice keeps points at 0 and
refreshes the timestamp. -/
theorem add_member_idempotent_witness :
    (findEntry [] 1 7 = none → pointsAt (add_member [] 1 7 "bob" 4) 1 7 = some 0) ∧
    (findEntry [] 1 7 = none) ∧
    (findEntry (add_member [] 1 7 "bob" 4) 1 7 = some ⟨1, 7, "bob", 0, 4, 4⟩) ∧
    findEntry (add_member (add_member [] 1 7 "bob" 4) 1 7 "bob" 9) 1 7 =
      some { (⟨1, 7, "bob", 0, 4, 4⟩ : Row) with username := truncate255 "bob", lastUpdated := 9 } :=
  ⟨(add_member_idempotent [] 1 7 "bob" 4 9).1, by decide, by decide,
   (add_member_idempotent [] 1 7 "bob" 4 9).2 ⟨1, 7, "bob", 0, 4, 4⟩ (by decide)⟩

/-- C8 as stated is false at a concrete table: the entry `(1, 7)` is
present, yet `remove_member` returns Python `None`, which is falsy rather
than a truthy "was present" indicator. -/
theorem remove_member_return_cex :
    ¬ ((findEntry [(⟨1, 7, "alice", 5, 0, 0⟩ : Row)] 1 7).isSome = true →
        pyTruthy (remove_member [(⟨1, 7, "alice", 5, 0, 0⟩ : Row)] 1 7).ret = true) := by
  decide

/-- C8 amended: `remove_member` deletes the `(g, u)` row and keeps every
other row; whether a row was actually removed is computed (the `DELETE n`
command tag, compared against `"DELETE 1"`) but only logged — the method
returns `None` to its caller whether or not the entry existed. -/
theorem remove_member_spec (db : List Row) (g u : Nat) :
    findEntry (remove_member db g u).db g u = none ∧
    (∀ r ∈ db, keyMatch g u r = false → r ∈ (remove_member db g u).db) ∧
    (remove_member db g u).ret = none ∧
    (remove_member db g u).tag = "DELETE " ++ toString (countKey db g u) ∧
    (countKey db g u = 0 ↔ findEntry db g u = none) := by
  refine ⟨?_, ?_, rfl, rfl, countKey_eq_zero_iff db g u⟩
  · unfold remove_member findEntry
    refine List.find?_eq_none.2 ?_
    intro r hr
    have hneg := (List.mem_filter.1 hr).2
    simp only [Bool.not_eq_true'] at hneg
    simp [hneg]
  · intro r hr hkey
    unfold remove_member
    exact List.mem_filter.2 ⟨hr, by simp [hkey]⟩

/-- Witness for C8's amended theorem at a one-row table. -/
theorem remove_member_spec_witness :
    findEntry (remove_member [(⟨1, 7, "alice", 5, 0, 0⟩ : Row)] 1 7).db 1 7 = none ∧
    (∀ r ∈ [(⟨1, 7, "alice", 5, 0, 0⟩ : Row)], keyMatch 1 7 r = false →
      r ∈ (remove_member [(⟨1, 7, "alice", 5, 0, 0⟩ : Row)] 1 7).db) ∧
    (remove_member [(⟨1, 7, "alice", 5, 0, 0⟩ : Row)] 1 7).ret = none ∧
    (remove_member [(⟨1, 7, "alice", 5, 0, 0⟩ : Row)] 1 7).tag =
      "DELETE " ++ toString (countKey [(⟨1, 7, "alice", 5, 0, 0⟩ : Row)] 1 7) ∧
    (countKey [(⟨1, 7, "alice", 5, 0, 0⟩ : Row)] 1 7 = 0 ↔
      findEntry [(⟨1, 7, "alice", 5, 0, 0⟩ : Row)] 1 7 = none) :=
  remove_member_spec [⟨1, 7, "alice", 5, 0, 0⟩] 1 7

/-- C3: priority rules of the rank resolver.  A held special role decides
the title regardless of points; otherwise 750+ points with a Core-tier role
give "Core Disciple"; with no tier role held at all, 350+ points fall back
to "Inner Disciple" (the ≥750 and ≥350 branches coincide) and 10..349
points to "Outer Disciple"; below 10 points without a special role the
title is "Servant". -/
theorem get_rank_title_rules (p : Int) (roles : List Nat) :
    (∀ t, lookupSpecial roles = some t → get_rank_title_by_points p (some roles) = t) ∧
    (lookupSpecial roles = none → 750 ≤ p → hasAny roles core_roles = true →
      get_rank_title_by_points p (some roles) = "Core Disciple") ∧
    (lookupSpecial roles = none → hasAny roles core_roles = false →
      hasAny roles inner_roles = false → hasAny roles outer_roles = false →
      ((350 ≤ p → get_rank_title_by_points p (some roles) = "Inner Disciple") ∧
       (10 ≤ p → p < 350 → get_rank_title_by_points p (some roles) = "Outer Disciple"))) ∧
    (lookupSpecial roles = none → p < 10 →
      get_rank_title_by_points p (some roles) = "Servant") := by
  refine ⟨?_, ?_, ?_, ?_⟩
  · intro t ht
    simp [get_rank_title_by_points, ht]
  · intro hs hp hc
    simp [get_rank_title_by_points, hs, hp, hc]
  · intro hs hc hi ho
    constructor
    · intro hp
      have h10 : ¬(p < 10) := by omega
      by_cases h750 : 750 ≤ p
      · simp [get_rank_title_by_points, hs, hc, hi, ho, h10, h750]
      · simp [get_rank_title_by_points, hs, hc, hi, ho, h10, h750, hp]
    · intro hp hp2
      simp [get_rank_title_by_points, hs, hc, hi, ho, hp,
        show ¬(750 ≤ p) from by omega, show ¬(350 ≤ p) from by omega,
        show ¬(p < 10) from by omega]
  · intro hs hp
    simp [get_rank_title_by_points, hs, hp,
      show ¬(750 ≤ p) from by omega, show ¬(350 ≤ p) from by omega,
      show ¬(10 ≤ p) from by omega]

/-- Witness for C3: the special-role override, the 760-point Core-tier
scenario, the flattened point-only fallbacks, and the Servant floor, each
obtained from the rules theorem at concrete inputs. -/
theorem get_rank_title_rules_witness :
    get_rank_title_by_points 760 (some [1266143259801948261]) = "Demon God" ∧
    get_rank_title_by_points 760 (some [1391059979167072286]) = "Core Disciple" ∧
    get_rank_title_by_points 760 (some []) = "Inner Disciple" ∧
    get_rank_title_by_points 400 (some []) = "Inner Disciple" ∧
    get_rank_title_by_points 50 (some []) = "Outer Disciple" ∧
    get_rank_title_by_points 5 (some [1391059979167072286]) = "Servant" :=
  ⟨(get_rank_title_rules 760 [1266143259801948261]).1 "Demon God" (by decide),
   (get_rank_title_rules 760 [1391059979167072286]).2.1 (by decide) (by decide) (by decide),
   ((get_rank_title_rules 760 []).2.2.1 rfl rfl rfl rfl).1 (by decide),
   ((get_rank_title_rules 400 []).2.2.1 rfl rfl rfl rfl).1 (by decide),
   ((get_rank_title_rules 50 []).2.2.1 rfl rfl rfl rfl).2 (by decide) (by decide),
   (get_rank_title_rules 5 [1391059979167072286]).2.2.2 (by decide) (by decide)⟩

/-- C4 as stated is false at the empty table: a guild with zero rows yields
`([], 0, 0)`, not `([], 1, 1)`. -/
theorem get_leaderboard_empty_cex :
    get_leaderboard [] 1 1 10 ≠ ⟨[], 1, 1⟩ ∧ get_leaderboard [] 1 1 10 = ⟨[], 0, 0⟩ := by
  decide

/-- C4 amended: for a guild with zero ledger rows `_get_leaderboard_async`
takes its early-return branch and yields the empty row list with page
number 0 and totalPages 0; the `max(1, ceil(count/per_page))` floor of one
page is applied only when the guild is nonempty. -/
theorem get_leaderboard_empty (db : List Row) (g : Nat) (p : Int) (perPage : Nat)
    (h : visibleRows db g = []) :
    get_leaderboard db g p perPage = ⟨[], 0, 0⟩ := by
  unfold get_leaderboard
  simp [h]

/-- Witness for C4's amended theorem at the empty table. -/
theorem get_leaderboard_empty_witness :
    visibleRows [] 2 = [] ∧ get_leaderboard [] 2 3 10 = ⟨[], 0, 0⟩ :=
  ⟨by decide, get_leaderboard_empty [] 2 3 10 (by decide)⟩

/-- C5 fails on the code: `get_user_stats` evaluates `ROW_NUMBER()` after
the `WHERE guild_id AND user_id` filter, i.e. over the single matching row,
so the reported rank is always 1.  Here user 8 holds the second-highest
points of guild 1 and the full ordering places the user at position 2, yet
the returned rank is 1. -/
theorem get_user_stats_rank_bug :
    (get_user_stats [⟨1, 7, "alice", 100, 0, 0⟩, ⟨1, 8, "bob", 50, 1, 0⟩] 1 8).map Stats.rank =
      some 1 ∧
    ((withRowNumbers 1
        (orderedGuildRows [⟨1, 7, "alice", 100, 0, 0⟩, ⟨1, 8, "bob", 50, 1, 0⟩] 1)).find?
        (fun pr => pr.2.userId == 8)).map Prod.fst = some 2 := by
  decide

/-! Lemmas about the ranked full ordering. -/

theorem length_withRowNumbers (n : Nat) (l : List Row) :
    (withRowNumbers n l).length = l.length := by
  induction l generalizing n with
  | nil => rfl
  | cons r rs ih => simp [withRowNumbers, ih]

theorem fst_getElem_withRowNumbers (n : Nat) (l : List Row) (i : Nat)
    (h : i < (withRowNumbers n l).length) :
    ((withRowNumbers n l).get ⟨i, h⟩).1 = n + i := by
  induction l generalizing n i with
  | nil => exact absurd h (by simp [withRowNumbers])
  | cons r rs ih =>
    cases i with
    | zero => rfl
    | succ j =>
      have hj : j < (withRowNumbers (n + 1) rs).length := by
        simpa [withRowNumbers] using h
      have := ih (n + 1) j hj
      simpa [withRowNumbers, Nat.add_assoc, Nat.add_comm 1 j] using this

theorem mem_withRowNumbers (n : Nat) (l : List Row) (q : Nat × Row)
    (h : q ∈ withRowNumbers n l) : q.2 ∈ l := by
  induction l generalizing n with
  | nil => cases h
  | cons r rs ih =>
    rcases List.mem_cons.1 h with hq | hq
    · subst hq
      exact List.mem_cons_self _ _
    · exact List.mem_cons_of_mem _ (ih (n + 1) hq)

theorem pairwise_pageOrder_withRowNumbers (n : Nat) (l : List Row)
    (hp : List.Pairwise rowOrder l) :
    List.Pairwise pageOrder ((withRowNumbers n l).map toPageRow) := by
  induction l generalizing n with
  | nil => exact List.Pairwise.nil
  | cons r rs ih =>
    rcases List.pairwise_cons.1 hp with ⟨hr, hrs⟩
    refine List.Pairwise.cons ?_ (ih (n + 1) hrs)
    intro y hy
    rcases List.mem_map.1 hy with ⟨q, hq, rfl⟩
    have hmem := mem_withRowNumbers _ _ _ hq
    have hro := hr q.2 hmem
    simpa [pageOrder, toPageRow, rowOrder] using hro

theorem map_rank_slice (l : List Row) (off k : Nat) :
    (((withRowNumbers 1 l).drop off).take k).map Prod.fst =
      List.range' (off + 1) ((((withRowNumbers 1 l).drop off).take k).length) := by
  refine List.ext_getElem ?_ ?_
  · simp
  · intro i h1 h2
    rw [List.getElem_map, List.getElem_take, List.getElem_drop, List.getElem_range']
    have hlt : off + i < (withRowNumbers 1 l).length := by
      simp only [List.length_map, List.length_take, List.length_drop, lt_min_iff] at h1
      omega
    rw [← List.get_eq_getElem (withRowNumbers 1 l) ⟨off + i, hlt⟩,
      fst_getElem_withRowNumbers 1 l (off + i) hlt]
    omega

/-- C2: for a nonempty guild and positive page size, `_get_leaderboard_async`
returns the requested page clamped into `[1, totalPages]`, rows ordered by
points descending then `last_updated` ascending, and the rows are exactly
the offset slice of the fully ranked guild ordering, with the 1-based ranks
running `offset + 1, offset + 2, ...`, continuing numerically across
pages. -/
theorem get_leaderboard_page_spec (db : List Row) (g : Nat) (p : Int) (perPage : Nat)
    (hne : visibleRows db g ≠ []) (hpp : 0 < perPage) :
    (get_leaderboard db g p perPage).totalPages =
      max 1 (((visibleRows db g).length + perPage - 1) / perPage) ∧
    (get_leaderboard db g p perPage).page =
      max 1 (min p ((get_leaderboard db g p perPage).totalPages : Int)) ∧
    List.Pairwise pageOrder (get_leaderboard db g p perPage).rows ∧
    (get_leaderboard db g p perPage).rows =
      (((withRowNumbers 1 (orderedGuildRows db g)).map toPageRow).drop
        (((get_leaderboard db g p perPage).page - 1).toNat * perPage)).take perPage ∧
    (get_leaderboard db g p perPage).rows.map PageRow.rank =
      List.range' (((get_leaderboard db g p perPage).page - 1).toNat * perPage + 1)
        (get_leaderboard db g p perPage).rows.length := by
  have htot : ¬((visibleRows db g).length = 0) := fun h0 => hne (List.length_eq_zero.1 h0)
  refine ⟨?_, ?_, ?_, ?_, ?_⟩
  · simp only [get_leaderboard, if_neg htot]
  · simp only [get_leaderboard, if_neg htot]
  · simp only [get_leaderboard, if_neg htot]
    refine List.Pairwise.sublist ?_
      (pairwise_pageOrder_withRowNumbers 1 (orderedGuildRows db g)
        (List.sorted_insertionSort rowOrder (visibleRows db g)))
    exact List.Sublist.map toPageRow
      ((List.take_sublist _ _).trans (List.drop_sublist _ _))
  · simp only [get_leaderboard, if_neg htot]
    rw [List.map_take, List.map_drop]
  · simp only [get_leaderboard, if_neg htot]
    rw [List.map_map, List.length_map]
    have hcomp : PageRow.rank ∘ toPageRow = Prod.fst := rfl
    rw [hcomp, map_rank_slice]

/-- Witness for C2: in a two-member guild, page 2 of size 1 carries the
rank sequence starting at offset 1 + 1 = 2, i.e. ranks continue numerically
from page 1. -/
theorem get_leaderboard_page_spec_witness :
    (get_leaderboard [(⟨1, 7, "a", 5, 0, 0⟩ : Row), ⟨1, 8, "b", 9, 1, 0⟩] 1 2 1).rows.map
        PageRow.rank =
      List.range'
        (((get_leaderboard [(⟨1, 7, "a", 5, 0, 0⟩ : Row), ⟨1, 8, "b", 9, 1, 0⟩] 1 2 1).page
            - 1).toNat * 1 + 1)
        (get_leaderboard [(⟨1, 7, "a", 5, 0, 0⟩ : Row), ⟨1, 8, "b", 9, 1, 0⟩] 1 2 1).rows.length :=
  (get_leaderboard_page_spec [⟨1, 7, "a", 5, 0, 0⟩, ⟨1, 8, "b", 9, 1, 0⟩] 1 2 1
    (by decide) (by decide)).2.2.2.2

/-! Lemmas about the embed field-splitting loop. -/

theorem blocksLoop_length_le (entries : List String) :
    ∀ (cur : String) (done : List String) (cf : Nat), cf ≤ 19 →
      (blocksLoop entries cur done cf).length ≤ done.length + 1 + (20 - cf) := by
  induction entries with
  | nil =>
    intro cur done cf hcf
    simp only [blocksLoop, List.length_reverse, List.length_cons]
    omega
  | cons e rest ih =>
    intro cur done cf hcf
    unfold blocksLoop
    by_cases hov : (cur ++ e).length > 950
    · rw [if_pos hov]
      by_cases hcap : cf + 1 ≥ 20
      · rw [if_pos hcap]
        simp only [List.length_reverse, List.length_cons]
        omega
      · rw [if_neg hcap]
        have := ih e (cur :: done) (cf + 1) (by omega)
        simp only [List.length_cons] at this
        omega
    · rw [if_neg hov]
      by_cases hcap2 : cf ≥ 20
      · rw [if_pos hcap2]
        simp only [List.length_reverse, List.length_cons]
        omega
      · rw [if_neg hcap2]
        exact ih (cur ++ e) done cf hcf

theorem blocksLoop_block_sizes (entries : List String) :
    ∀ (cur : String) (done : List String) (cf : Nat) (s : String),
      s ∈ blocksLoop entries cur done cf →
      s.length ≤ 950 ∨ s ∈ entries ∨ s = cur ∨ s ∈ done := by
  induction entries with
  | nil =>
    intro cur done cf s hs
    simp only [blocksLoop, List.mem_reverse, List.mem_cons] at hs
    rcases hs with h | h
    · exact Or.inr (Or.inr (Or.inl h))
    · exact Or.inr (Or.inr (Or.inr h))
  | cons e rest ih =>
    intro cur done cf s hs
    unfold blocksLoop at hs
    by_cases hov : (cur ++ e).length > 950
    · rw [if_pos hov] at hs
      by_cases hcap : cf + 1 ≥ 20
      · rw [if_pos hcap] at hs
        simp only [List.mem_reverse, List.mem_cons] at hs
        rcases hs with h | h | h
        · exact Or.inr (Or.inl (by simp [h]))
        · exact Or.inr (Or.inr (Or.inl h))
        · exact Or.inr (Or.inr (Or.inr h))
      · rw [if_neg hcap] at hs
        rcases ih e (cur :: done) (cf + 1) s hs with h | h | h | h
        · exact Or.inl h
        · exact Or.inr (Or.inl (List.mem_cons_of_mem _ h))
        · exact Or.inr (Or.inl (by simp [h]))
        · rcases List.mem_cons.1 h with h2 | h2
          · exact Or.inr (Or.inr (Or.inl h2))
          · exact Or.inr (Or.inr (Or.inr h2))
    · rw [if_neg hov] at hs
      by_cases hcap2 : cf ≥ 20
      · rw [if_pos hcap2] at hs
        simp only [List.mem_reverse, List.mem_cons] at hs
        rcases hs with h | h
        · left
          rw [h]
          omega
        · exact Or.inr (Or.inr (Or.inr h))
      · rw [if_neg hcap2] at hs
        rcases ih (cur ++ e) done cf s hs with h | h | h | h
        · exact Or.inl h
        · exact Or.inr (Or.inl (List.mem_cons_of_mem _ h))
        · left
          rw [h]
          omega
        · exact Or.inr (Or.inr (Or.inr h))

set_option maxRecDepth 40000 in
set_option maxHeartbeats 1000000 in
/-- C9 as stated is false at `giantRows`: the renderer produces 21 ranking
fields (the loop only breaks after opening field index 20), and one of the
singleton fields is a 1185-character line, beyond the 1024-character block
limit. -/
theorem create_leaderboard_embed_blocks_cex :
    ¬ ((∀ b ∈ rankingFields giantRows, b.length ≤ 1024) ∧
       (rankingFields giantRows).length ≤ 20) := by
  decide

/-- C9 amended: every ranking field is bounded by 1024 characters whenever
every rendered row line is (a field either stays at or below 950 characters
or is a single overlong line), and the number of ranking fields never
exceeds 21 — the break fires only after field index 20 has been opened, so
with the one summary-statistics field the embed holds at most 22 fields,
still under the 25-field message limit. -/
theorem create_leaderboard_embed_blocks_bound (rows : List PageRow)
    (h : ∀ r ∈ rows, (formatEntry r).length ≤ 1024) :
    (∀ b ∈ rankingFields rows, b.length ≤ 1024) ∧ (rankingFields rows).length ≤ 21 := by
  constructor
  · intro b hb
    have hb2 : b ∈ blocksLoop (rows.map formatEntry) "" [] 0 := (List.mem_filter.1 hb).1
    rcases blocksLoop_block_sizes (rows.map formatEntry) "" [] 0 b hb2 with
      h950 | hmem | hcur | hdone
    · omega
    · rcases List.mem_map.1 hmem with ⟨r, hr, rfl⟩
      exact h r hr
    · rw [hcur]
      simp
    · cases hdone
  · have hlen := blocksLoop_length_le (rows.map formatEntry) "" [] 0 (by omega)
    have hfil :
        (rankingFields rows).length ≤ (blocksLoop (rows.map formatEntry) "" [] 0).length :=
      List.length_filter_le _ _
    simp only [List.length_nil] at hlen
    omega

/-- Witness for C9's amended theorem at a one-row page. -/
theorem create_leaderboard_embed_blocks_bound_witness :
    (∀ r ∈ [(⟨1, 1, "a", 0, 0⟩ : PageRow)], (formatEntry r).length ≤ 1024) ∧
    ((∀ b ∈ rankingFields [(⟨1, 1, "a", 0, 0⟩ : PageRow)], b.length ≤ 1024) ∧
     (rankingFields [(⟨1, 1, "a", 0, 0⟩ : PageRow)]).length ≤ 21) :=
  ⟨by decide, create_leaderboard_embed_blocks_bound [⟨1, 1, "a", 0, 0⟩] (by decide)⟩

/-- C10: `validate_points_input` returns the parsed integer exactly when
the string parses as an integer in `[-10000, 10000]` and `None` otherwise,
and the `addpoints` handler rejects any amount outside `[-10000, 10000]`
before calling `update_points`, so an out-of-range amount leaves the table
unchanged. -/
theorem points_magnitude_limit (s : String) (v : Int) (db : List Row) (g u : Nat)
    (isBot : Bool) (name : String) (pts : Int) (now : Nat) (fault : Bool) :
    (validate_points_input s = some v ↔
      (pyInt s = some v ∧ -10000 ≤ v ∧ v ≤ 10000)) ∧
    ((pts < -10000 ∨ pts > 10000) →
      (add_points_command db g u isBot name pts now fault).1 = db) := by
  constructor
  · unfold validate_points_input
    rcases hp : pyInt s with _ | w
    · simp
    · dsimp only
      by_cases hw : w < -10000 ∨ w > 10000
      · rw [if_pos hw]
        constructor
        · intro h
          cases h
        · rintro ⟨hv, h1, h2⟩
          injection hv with hv
          omega
      · rw [if_neg hw]
        constructor
        · intro h
          injection h with h
          subst h
          exact ⟨rfl, by omega, by omega⟩
        · rintro ⟨hv, _, _⟩
          exact hv
  · intro hout
    unfold add_points_command
    cases isBot
    · rw [if_neg (by simp), if_pos hout]
    · rfl

/-- Witness for C10: the raw amount 20000 is rejected by the handler with
the table untouched, and the validator's characterisation holds at
"10001". -/
theorem points_magnitude_limit_witness :
    (validate_points_input "10001" = some 10001 ↔
      (pyInt "10001" = some 10001 ∧ -10000 ≤ (10001 : Int) ∧ (10001 : Int) ≤ 10000)) ∧
    (add_points_command [] 1 7 false "bob" 20000 3 false).1 = [] :=
  ⟨(points_magnitude_limit "10001" 10001 [] 1 7 false "bob" 20000 3 false).1,
   (points_magnitude_limit "10001" 10001 [] 1 7 false "bob" 20000 3 false).2 (by decide)⟩

end LeadBoard
